import Mathlib

/-!
Shallow embedding of the retry-orchestration engine of `dueltech/fetch-extension`
(`src/fetch.js`, first variant, together with `countOf` from `src/util.js`).

JavaScript values are modelled as follows: an error object is a record of the
properties the engine reads (`name`, `code`, `reason`, `cause`, and whether the
value is an `instanceof Error`); `undefined` string/number properties are
`Option`; a run record is a `Run`; the merged `options.extension` block is an
`Extension`.  The external transport (one network exchange per attempt) is
modelled as a function from the attempt index to that attempt's terminal
outcome, and the wall-clock readings around each attempt as a function from the
attempt index to the measured duration.
-/

namespace FetchExt

/-- The properties of a JS error value the engine reads.  `isErrorInstance`
models `value instanceof Error`. -/
structure ErrCore where
  name : String
  code : Option String := none
  reason : Option String := none
  isErrorInstance : Bool := true
deriving Repr, DecidableEq

/-- A thrown JS error with an optional `cause` (the engine only ever follows
one `cause` link, so a depth-one chain suffices). -/
structure JSError where
  core : ErrCore
  cause : Option ErrCore := none
deriving Repr, DecidableEq

/-- JS template rendering of a possibly-undefined string. -/
def optStr : Option String → String
  | some s => s
  | none => "undefined"

/-- JS template rendering of a possibly-undefined number. -/
def optNatStr : Option Nat → String
  | some n => toString n
  | none => "undefined"

/-- `DuelFetch.#isAbortError`: `(error instanceof Error) && error.name === 'AbortError'`. -/
def isAbortError (e : JSError) : Bool :=
  e.core.isErrorInstance && e.core.name == "AbortError"

/-- The same check applied to the de-caused subject inside `#errorSummary`. -/
def isAbortCore (c : ErrCore) : Bool :=
  c.isErrorInstance && c.name == "AbortError"

/-- `DuelFetch.#errorCode`: `(error.cause || error).code`. -/
def errorCode (e : JSError) : Option String :=
  (e.cause.getD e.core).code

/-- `DuelFetch.#errorSummary`: the subject is `error.cause || error`; an abort
error renders as `name (reason)`, any other as `name (code)`.  (`#errorCode`
applied to the already de-caused subject reads `subject.code`, since in a
depth-one chain the subject has no further `cause`.) -/
def errorSummary (e : JSError) : String :=
  let subject := e.cause.getD e.core
  if isAbortCore subject then
    subject.name ++ " (" ++ optStr subject.reason ++ ")"
  else
    subject.name ++ " (" ++ optStr subject.code ++ ")"

/-- `countOf` from `src/util.js`, at a count (an array argument passes its
length): `count subject` plus a plural `s` unless the count is exactly 1. -/
def countOf (count : Nat) (subject : String) : String :=
  toString count ++ " " ++ subject ++ (if count == 1 then "" else "s")

/-- One attempt record (`run`).  `retryable` is `false` where the source leaves
the property `undefined` (the source only ever tests its truthiness). -/
structure Run where
  status : Option Nat := none
  error : Option JSError := none
  retryable : Bool := false
  time : Nat := 0
deriving Repr, DecidableEq

/-- The `failed` getter: `Boolean(this.error || this.retryable)`. -/
def Run.failed (r : Run) : Bool :=
  r.error.isSome || r.retryable

/-- The `reason` property of the record's error, when an error is present. -/
def Run.errorReason (r : Run) : Option (Option String) :=
  r.error.map (fun e => e.core.reason)

/-- The merged `extension.retry` block (durations resolved to milliseconds). -/
structure RetryConfig where
  limit : Nat
  delay : Nat
  methods : List String
deriving Repr, DecidableEq

/-- The merged `options.extension` block after the constructor ran.
`retry = none` models a `null`/empty retry value (`lodash isEmpty` true);
`onComplete` records whether a completion callback is configured. -/
structure Extension where
  timeout : Option Nat := none
  retry : Option RetryConfig := none
  onComplete : Bool := false
deriving Repr, DecidableEq

/-- JS truthiness of `extension.timeout` (absent or `0` is falsy). -/
def Extension.timeoutSet (e : Extension) : Bool :=
  (e.timeout.getD 0) != 0

/-- The default retry methods of the constructor's `defaultExtension`. -/
def defaultMethods : List String :=
  ["DELETE", "GET", "HEAD", "PATCH", "PUT"]

/-- The constructor's `defaultExtension.retry` (`'100 ms'` resolves to 100). -/
def defaultRetry : RetryConfig :=
  { limit := 1, delay := 100, methods := defaultMethods }

/-- A caller-supplied `retry` object before defaulting: each absent field is
`undefined` and will be filled from `defaultExtension.retry`. -/
structure RetryConfigInput where
  limit : Option Nat := none
  delay : Option Nat := none
  methods : Option (List String) := none
deriving Repr, DecidableEq

/-- The caller's `extension.retry` property: `undefined`, `null`, or an object.
`lodash defaults` fills only `undefined`, so a `null` survives defaulting. -/
inductive RetryField where
  | undef
  | nullv
  | obj (rc : RetryConfigInput)
deriving Repr, DecidableEq

/-- A caller-supplied `options.extension` block before defaulting. -/
structure ExtensionInput where
  timeout : Option Nat := none
  retry : RetryField := RetryField.undef
  onComplete : Bool := false
deriving Repr, DecidableEq

/-- `defaults(extension, defaultExtension)` followed by the per-key
`defaults(v, defaultExtension[k])` loop: an `undefined` retry is replaced by
the full default, an object has each missing field filled in, and a `null`
retry is left `null` (lodash `defaults` fills only `undefined`; the per-key
`defaults(null, ...)` returns a fresh wrapper that is discarded). -/
def mergeDefaults (e : ExtensionInput) : Extension :=
  match e.retry with
  | RetryField.undef =>
      { timeout := e.timeout, retry := some defaultRetry, onComplete := e.onComplete }
  | RetryField.nullv =>
      { timeout := e.timeout, retry := none, onComplete := e.onComplete }
  | RetryField.obj rc =>
      { timeout := e.timeout
        retry := some
          { limit := rc.limit.getD defaultRetry.limit
            delay := rc.delay.getD defaultRetry.delay
            methods := rc.methods.getD defaultRetry.methods }
        onComplete := e.onComplete }

/-- A caller-supplied cancellation token (`AbortSignal`) with its `reason`. -/
structure Signal where
  reason : Option String := none
deriving Repr, DecidableEq

/-- The caller's fetch options object.  Besides the `extension` block the
engine reads `signal` (in `#evaluate`) and the request method; all remaining
transport fields are kept opaque in `rest`. -/
structure Options where
  extension : Option ExtensionInput := none
  signal : Option Signal := none
  method : Option String := none
  rest : List (String × String) := []
deriving Repr, DecidableEq

/-- The `fetchArgs` array `[url, options]`. -/
structure FetchArgs where
  url : String
  options : Option Options := none
deriving Repr, DecidableEq

/-- The constructor guard reads `fetchArgs.signal`.  `fetchArgs` is the array
`[url, options]`, and a JS array value has no own `signal` property, so this
property access always yields `undefined` (the caller's signal actually lives
at `fetchArgs[1].signal`). -/
def FetchArgs.arraySignal (_ : FetchArgs) : Option Signal :=
  none

/-- `this.fetchArgs[1]?.signal?.reason`, as read in `#evaluate`. -/
def FetchArgs.callerSignalReason (a : FetchArgs) : Option String :=
  (a.options.bind Options.signal).bind Signal.reason

/-- The state `assign(this, {extension, fetchArgs})` leaves on the instance. -/
structure DuelFetchState where
  extension : Extension
  fetchArgs : FetchArgs
deriving Repr, DecidableEq

/-- The `DuelFetch` constructor: merge defaults; when `extension.timeout` is
truthy, resolve it to milliseconds (`ms` of a numeric value is the value) and
test the `fetchArgs.signal` guard, throwing a `TypeError` when it holds. -/
def construct (fetchArgs : FetchArgs) (ext : ExtensionInput) : Except String DuelFetchState :=
  let extension := mergeDefaults ext
  if extension.timeoutSet then
    if (fetchArgs.arraySignal).isSome then
      Except.error "extension.timeout cannot be used with options.signal"
    else
      Except.ok { extension := extension, fetchArgs := fetchArgs }
  else
    Except.ok { extension := extension, fetchArgs := fetchArgs }

/-- Modelled from the spec: `isServerErrorCode` is imported from
`#src/httpCodes`, a module absent from the source tree.  The spec defines a
server error as an HTTP status of at least 500. -/
def isServerErrorCode (status : Nat) : Bool :=
  decide (500 ≤ status)

/-- The `networkErrorCodes` table of the primary `#evaluate`
(`src/fetch.js` lines 191-200): seven codes. -/
def networkErrorCodes : List String :=
  ["ECONNRESET", "EADDRINUSE", "ECONNREFUSED", "EPIPE",
   "ENOTFOUND", "ENETUNREACH", "EAI_AGAIN"]

/-- The `networkErrorCodes` table of the second variant's `#evaluate`
(`src/fetch.js` lines 450-460): eight codes, including `ETIMEDOUT`. -/
def networkErrorCodesV2 : List String :=
  ["EADDRINUSE", "EAI_AGAIN", "ECONNREFUSED", "ECONNRESET",
   "ENETUNREACH", "ENOTFOUND", "EPIPE", "ETIMEDOUT"]

/-- `error.reason = r` (assignment on the outer error object; a `cause`, when
present, is untouched). -/
def JSError.setReason (e : JSError) (r : Option String) : JSError :=
  { e with core := { e.core with reason := r } }

/-- The terminal outcome of a single attempt: a response (with its HTTP
status) or a thrown error. -/
inductive Outcome where
  | response (status : Nat)
  | thrown (e : JSError)
deriving Repr, DecidableEq

/-- `DuelFetch.#evaluate` (primary variant): record `status` or `error`; when
the retry config is empty return early; classify an abort error by whether the
extension timeout is configured (retryable, reason annotated `Timeout`) or not
(the caller signal's reason is copied onto the error, nothing marked
retryable); classify any other error by code membership in
`networkErrorCodes` (an `undefined` code is never a member); classify a
response by method membership and `isServerErrorCode`. -/
def evaluate (extension : Extension) (callerReason : Option String) (method : String) :
    Outcome → Run
  | Outcome.response status =>
      let run : Run := { status := some status }
      match extension.retry with
      | none => run
      | some retryConfig =>
          { run with retryable := retryConfig.methods.contains method && isServerErrorCode status }
  | Outcome.thrown error =>
      let run : Run := { error := some error }
      match extension.retry with
      | none => run
      | some _ =>
          if isAbortError error then
            if extension.timeoutSet then
              { run with error := some (error.setReason (some "Timeout")), retryable := true }
            else
              { run with error := some (error.setReason callerReason) }
          else
            { run with retryable :=
                match errorCode error with
                | some c => networkErrorCodes.contains c
                | none => false }

/-- `DuelFetch.#evaluate` of the second variant, identical except for its
`networkErrorCodes` table. -/
def evaluateV2 (extension : Extension) (callerReason : Option String) (method : String) :
    Outcome → Run
  | Outcome.response status =>
      let run : Run := { status := some status }
      match extension.retry with
      | none => run
      | some retryConfig =>
          { run with retryable := retryConfig.methods.contains method && isServerErrorCode status }
  | Outcome.thrown error =>
      let run : Run := { error := some error }
      match extension.retry with
      | none => run
      | some _ =>
          if isAbortError error then
            if extension.timeoutSet then
              { run with error := some (error.setReason (some "Timeout")), retryable := true }
            else
              { run with error := some (error.setReason callerReason) }
          else
            { run with retryable :=
                match errorCode error with
                | some c => networkErrorCodesV2.contains c
                | none => false }

/-- `runLimit = (retryConfig?.limit || 0) + 1`. -/
def runLimit (extension : Extension) : Nat :=
  (match extension.retry with
   | some retryConfig => retryConfig.limit
   | none => 0) + 1

/-- One iteration of the loop body: classify attempt `i`'s outcome and stamp
its measured duration. -/
def attemptRun (extension : Extension) (callerReason : Option String) (method : String)
    (attempts : Nat → Outcome) (times : Nat → Nat) (i : Nat) : Run :=
  { evaluate extension callerReason method (attempts i) with time := times i }

/-- The `do … while (run.retryable && runs.length < runLimit)` loop, with the
remaining attempt budget as fuel: after executing a run, continue exactly when
it is retryable and budget remains. -/
def loopFrom (extension : Extension) (callerReason : Option String) (method : String)
    (attempts : Nat → Outcome) (times : Nat → Nat) : Nat → Nat → List Run
  | _, 0 => []
  | i, fuel + 1 =>
      if (attemptRun extension callerReason method attempts times i).retryable && fuel != 0 then
        attemptRun extension callerReason method attempts times i ::
          loopFrom extension callerReason method attempts times (i + 1) fuel
      else
        [attemptRun extension callerReason method attempts times i]

/-- The attempt log `runs` produced by `DuelFetch.fetch`. -/
def fetchRuns (extension : Extension) (callerReason : Option String) (method : String)
    (attempts : Nat → Outcome) (times : Nat → Nat) : List Run :=
  loopFrom extension callerReason method attempts times 0 (runLimit extension)

/-- The Report produced by `#stats`. -/
structure Report where
  runs : List Run
  totalFetchTime : Nat
  maxFetchTime : Nat
  lastRun : Run
  failMessage : Option String := none
  warnMessage : Option String := none
deriving Repr, DecidableEq

/-- JS rendering of `` `${it.status}` ``. -/
def statusText (r : Run) : String :=
  optNatStr r.status

/-- The ternary inside `failMessage`: `Failed with <error summary>` when the
final record carries an error, otherwise `Failed with status <code>`. -/
def failDescription (lastRun : Run) : String :=
  match lastRun.error with
  | some error => "Failed with " ++ errorSummary error
  | none => "Failed with status " ++ statusText lastRun

/-- The comma-joined summaries of the failed runs, as built for `warnMessage`. -/
def failedSummaries (runs : List Run) : String :=
  String.intercalate ", "
    ((runs.filter Run.failed).map (fun r =>
      match r.error with
      | some e => errorSummary e
      | none => statusText r))

/-- `DuelFetch.#stats`.  `runs.at(-1)` is `undefined` on an empty log and the
subsequent `lastRun.failed` read would throw, so the empty case is modelled as
`none`; the loop always hands over a non-empty log. -/
def stats (runs : List Run) : Option Report :=
  match runs.getLast? with
  | none => none
  | some lastRun =>
      let timings := runs.map Run.time
      let base : Report :=
        { runs := runs
          totalFetchTime := timings.sum
          maxFetchTime := timings.foldl max 0
          lastRun := lastRun }
      if lastRun.failed then
        let msg := failDescription lastRun ++ " after " ++ countOf runs.length "attempt"
        some { base with failMessage := some msg }
      else if runs.length > 1 then
        let msg :=
          "Required " ++ countOf runs.length "attempt"
          ++ " (" ++ failedSummaries runs ++ ")"
        some { base with warnMessage := some msg }
      else
        some base

/-- An ambient environment of a computation: wall-clock readings and a
randomness source. -/
structure World where
  now : Nat → Nat
  random : Nat → Nat

/-- `#stats` computed in an ambient environment `w`: the source body of
`#stats` performs no clock or randomness read, which the embedding makes
explicit by taking `w` and never consulting it. -/
def statsIn (_w : World) (runs : List Run) : Option Report :=
  stats runs

/-- The externally visible events at the tail of `DuelFetch.fetch`. -/
inductive FetchEvent where
  | onCompleteCall (report : Report)
  | raised (error : JSError)
  | resolvedWith (report : Report)
deriving Repr, DecidableEq

/-- The ordered event trace of the tail of `DuelFetch.fetch` (lines 106-112):
first the optional `onComplete` callback receives `#stats(runs)`; then a
final-run error is re-thrown, otherwise the response is returned carrying a
second `#stats(runs)` computation (equal to the first, `#stats` being pure). -/
def fetchTrace (extension : Extension) (callerReason : Option String) (method : String)
    (attempts : Nat → Outcome) (times : Nat → Nat) : List FetchEvent :=
  let runs := fetchRuns extension callerReason method attempts times
  match stats runs with
  | none => []
  | some report =>
      (if extension.onComplete then [FetchEvent.onCompleteCall report] else []) ++
      (match runs.getLast? with
       | some lastRun =>
           match lastRun.error with
           | some error => [FetchEvent.raised error]
           | none => [FetchEvent.resolvedWith report]
       | none => [])

/-- The `duelFetch` entry point (lines 7-18): read `options.extension`; when
present, delete it from the caller's options object in place; construct the
`DuelFetch` with `[url, options]` and the extracted block.  The result models
what the caller can observe afterwards: the options object as mutated, the
`fetchArgs` handed to the constructor, and the extracted extension block. -/
def duelFetch (url : String) (options : Option Options) :
    Option Options × FetchArgs × Option ExtensionInput :=
  let extension := options.bind Options.extension
  let mutated :=
    match options, extension with
    | some o, some _ => some { o with extension := none }
    | _, _ => options
  (mutated, { url := url, options := mutated }, extension)

/-! ## Test fixtures -/

/-- The extension obtained from an empty caller block (`duelFetch(url)`). -/
def stdExtension : Extension := mergeDefaults {}

/-- A default extension with a completion callback configured. -/
def cbExtension : Extension := { stdExtension with onComplete := true }

/-- A default extension with a 100 ms engine timeout. -/
def timeoutExtension : Extension := mergeDefaults { timeout := some 100 }

/-- The extension obtained from caller input `{timeout: 5000, retry: null}`. -/
def nullRetryExtension : Extension :=
  mergeDefaults { timeout := some 5000, retry := RetryField.nullv }

/-- A transport error carrying the `ECONNRESET` code. -/
def connResetError : JSError := { core := { name := "Error", code := some "ECONNRESET" } }

/-- A transport error carrying the generic timed-out code `ETIMEDOUT`. -/
def timedOutError : JSError := { core := { name := "Error", code := some "ETIMEDOUT" } }

/-- An abort error whose reason was `"original reason"` before classification. -/
def abortError : JSError :=
  { core := { name := "AbortError", reason := some "original reason" } }

/-- A transport that answers every attempt with an HTTP 500 response. -/
def always500 : Nat → Outcome := fun _ => Outcome.response 500

/-- A transport that fails every attempt with `ECONNRESET`. -/
def alwaysReset : Nat → Outcome := fun _ => Outcome.thrown connResetError

/-- Zero measured duration for every attempt. -/
def zeroTimes : Nat → Nat := fun _ => 0

/-- The single record of a one-shot successful call. -/
def singleOkRun : Run := { status := some 200 }

/-- The report of a one-shot successful call. -/
def singleOkReport : Report :=
  { runs := [singleOkRun], totalFetchTime := 0, maxFetchTime := 0, lastRun := singleOkRun }

/-- One record of the GET-500 scenario log. -/
def run500 : Run := { status := some 500, retryable := true }

/-- The report of the GET-500, `retry.limit = 1` scenario. -/
def report500 : Report :=
  { runs := [run500, run500], totalFetchTime := 0, maxFetchTime := 0,
    lastRun := run500, failMessage := some "Failed with status 500 after 2 attempts" }

/-- The attempt log of the GET-500, `retry.limit = 1` scenario. -/
def scenarioRuns : List Run := fetchRuns stdExtension none "GET" always500 zeroTimes

/-- Caller options carrying an extension block, for the entry-point claims. -/
def wOptions : Options :=
  { extension := some { timeout := some 7 }, method := some "PUT",
    rest := [("redirect", "follow")] }

/-- The `fetchArgs` of a call passing both a caller signal and a timeout. -/
def sigArgs : FetchArgs :=
  { url := "https://example.test",
    options := some { signal := some { reason := some "User-specified" } } }

/-- The extension input of a call passing both a caller signal and a timeout. -/
def sigExtInput : ExtensionInput := { timeout := some 1000 }

/-! ## Helper lemmas about the attempt loop and the aggregator -/

theorem loopFrom_length_le (extension : Extension) (callerReason : Option String)
    (method : String) (attempts : Nat → Outcome) (times : Nat → Nat) :
    ∀ fuel i, (loopFrom extension callerReason method attempts times i fuel).length ≤ fuel := by
  intro fuel
  induction fuel with
  | zero => intro i; simp [loopFrom]
  | succ f ih =>
      intro i
      simp only [loopFrom]
      split
      · simpa [List.length_cons] using Nat.succ_le_succ (ih (i + 1))
      · simp

theorem loopFrom_ne_nil (extension : Extension) (callerReason : Option String)
    (method : String) (attempts : Nat → Outcome) (times : Nat → Nat) :
    ∀ fuel i, fuel ≠ 0 →
      loopFrom extension callerReason method attempts times i fuel ≠ [] := by
  intro fuel i h
  match fuel with
  | 0 => exact absurd rfl h
  | f + 1 =>
      simp only [loopFrom]
      split <;> simp

theorem loopFrom_length_eq (extension : Extension) (callerReason : Option String)
    (method : String) (attempts : Nat → Outcome) (times : Nat → Nat) :
    ∀ fuel i,
      (∀ j, j + 1 < fuel →
        (attemptRun extension callerReason method attempts times (i + j)).retryable = true) →
      (loopFrom extension callerReason method attempts times i fuel).length = fuel := by
  intro fuel
  induction fuel with
  | zero => intro i _; simp [loopFrom]
  | succ f ih =>
      intro i h
      by_cases hf : f = 0
      · subst hf
        simp [loopFrom]
      · have hr : (attemptRun extension callerReason method attempts times i).retryable = true := by
          simpa using h 0 (by omega)
        have hfb : (f != 0) = true := by simpa using hf
        simp only [loopFrom, hr, hfb, Bool.and_self, if_true, List.length_cons]
        have hrec := ih (i + 1) (fun j hj => by
          have hh := h (j + 1) (by omega)
          rw [show i + (j + 1) = i + 1 + j by omega] at hh
          exact hh)
        omega

theorem loopFrom_mem (extension : Extension) (callerReason : Option String)
    (method : String) (attempts : Nat → Outcome) (times : Nat → Nat) :
    ∀ fuel i r, r ∈ loopFrom extension callerReason method attempts times i fuel →
      ∃ j, r = attemptRun extension callerReason method attempts times j := by
  intro fuel
  induction fuel with
  | zero => intro i r hr; simp [loopFrom] at hr
  | succ f ih =>
      intro i r hr
      simp only [loopFrom] at hr
      split at hr
      · rcases List.mem_cons.mp hr with h | h
        · exact ⟨i, h⟩
        · exact ih (i + 1) r h
      · rcases List.mem_singleton.mp hr with h
        exact ⟨i, h⟩

theorem fetchRuns_ne_nil (extension : Extension) (callerReason : Option String)
    (method : String) (attempts : Nat → Outcome) (times : Nat → Nat) :
    fetchRuns extension callerReason method attempts times ≠ [] :=
  loopFrom_ne_nil extension callerReason method attempts times (runLimit extension) 0
    (by simp [runLimit])

theorem stats_isSome (runs : List Run) (h : runs ≠ []) : (stats runs).isSome = true := by
  unfold stats
  split
  · rename_i hg
    exact absurd (List.getLast?_eq_none_iff.mp hg) h
  · dsimp only
    split_ifs <;> rfl

theorem evaluate_response_error_none (extension : Extension) (callerReason : Option String)
    (method : String) (status : Nat) :
    (evaluate extension callerReason method (Outcome.response status)).error = none := by
  cases h : extension.retry <;> simp [evaluate, h]

/-- The shape of the trace at the tail of `fetch`: the report (when the
callback is configured) is emitted first, then the terminal event determined
by the final record's error. -/
theorem fetchTrace_shape (extension : Extension) (callerReason : Option String)
    (method : String) (attempts : Nat → Outcome) (times : Nat → Nat) :
    ∃ report lastRun,
      stats (fetchRuns extension callerReason method attempts times) = some report ∧
      (fetchRuns extension callerReason method attempts times).getLast? = some lastRun ∧
      fetchTrace extension callerReason method attempts times =
        (if extension.onComplete then [FetchEvent.onCompleteCall report] else []) ++
        [match lastRun.error with
         | some error => FetchEvent.raised error
         | none => FetchEvent.resolvedWith report] := by
  have hne := fetchRuns_ne_nil extension callerReason method attempts times
  obtain ⟨lastRun, hg⟩ : ∃ lastRun,
      (fetchRuns extension callerReason method attempts times).getLast? = some lastRun := by
    cases hgl : (fetchRuns extension callerReason method attempts times).getLast? with
    | none => exact absurd (List.getLast?_eq_none_iff.mp hgl) hne
    | some l => exact ⟨l, rfl⟩
  obtain ⟨report, hs⟩ : ∃ report,
      stats (fetchRuns extension callerReason method attempts times) = some report :=
    Option.isSome_iff_exists.mp
      (stats_isSome (fetchRuns extension callerReason method attempts times) hne)
  refine ⟨report, lastRun, hs, hg, ?_⟩
  unfold fetchTrace
  dsimp only
  rw [hs, hg]
  cases he : lastRun.error <;> simp [he]

/-! ## Claim theorems -/

/-- C1: for a call with retry limit `L`, the attempt log produced by
`DuelFetch.fetch` has length at most `L + 1`, and has length exactly `L + 1`
when every attempt up to the limit is classified retryable. -/
theorem fetch_attempt_count (extension : Extension) (callerReason : Option String)
    (method : String) (attempts : Nat → Outcome) (times : Nat → Nat)
    (retryConfig : RetryConfig) (L : Nat)
    (hrc : extension.retry = some retryConfig) (hL : retryConfig.limit = L) :
    (fetchRuns extension callerReason method attempts times).length ≤ L + 1 ∧
    ((∀ j, j < L →
        (attemptRun extension callerReason method attempts times j).retryable = true) →
      (fetchRuns extension callerReason method attempts times).length = L + 1) := by
  have hlimit : runLimit extension = L + 1 := by
    simp [runLimit, hrc, hL]
  constructor
  · unfold fetchRuns
    rw [hlimit]
    exact loopFrom_length_le extension callerReason method attempts times (L + 1) 0
  · intro h
    unfold fetchRuns
    rw [hlimit]
    exact loopFrom_length_eq extension callerReason method attempts times (L + 1) 0
      (fun j hj => by simpa using h j (by omega))

/-- C1 witness: with the default config (limit 1) and a transport failing
every attempt with `ECONNRESET`, exactly 2 attempts are performed. -/
theorem fetch_attempt_count_w :
    (fetchRuns stdExtension none "GET" alwaysReset zeroTimes).length = 2 :=
  (fetch_attempt_count stdExtension none "GET" alwaysReset zeroTimes
    defaultRetry 1 rfl rfl).2 (fun j hj => by
      have hj0 : j = 0 := by omega
      subst hj0
      decide)

/-- C3 (code-bug evidence): the constructor's mutual-exclusion guard reads
`fetchArgs.signal` on the `[url, options]` array value, which has no `signal`
property, so construction never raises — in particular not at the failing
input where the extension timeout is set and the caller's options carry a
cancellation signal, where the claim (and the guard's own error message)
demand a synchronous `TypeError`. -/
theorem construct_guard_dead :
    (∀ (args : FetchArgs) (ext : ExtensionInput), (construct args ext).isOk = true) ∧
    (construct sigArgs sigExtInput).isOk = true ∧
    sigArgs.callerSignalReason = some "User-specified" ∧
    (mergeDefaults sigExtInput).timeoutSet = true := by
  refine ⟨?_, by decide, by decide, by decide⟩
  intro args ext
  unfold construct
  dsimp only
  split_ifs <;> simp_all [FetchArgs.arraySignal, Except.isOk, Except.toBool]

/-- C9: the stats aggregator is a pure deterministic function of the attempt
log — computed in any two ambient environments (wall clock, randomness) it
yields the identical report, which is also the report of the plain recomputation. -/
theorem report_deterministic (w₁ w₂ : World) (runs : List Run) :
    statsIn w₁ runs = statsIn w₂ runs ∧ statsIn w₁ runs = stats runs :=
  ⟨rfl, rfl⟩

/-- C10: when the caller's options carry an extension block, `duelFetch`
deletes the `extension` property from that options object in place (the
mutation is what the caller observes after the call), leaves every other field
unchanged, and forwards the very same mutated object inside the `fetchArgs`
handed to the engine. -/
theorem entry_mutation (url : String) (o : Options) (e : ExtensionInput)
    (h : o.extension = some e) :
    (duelFetch url (some o)).1 = some { o with extension := none } ∧
    ({ o with extension := none } : Options).extension = none ∧
    ({ o with extension := none } : Options).signal = o.signal ∧
    ({ o with extension := none } : Options).method = o.method ∧
    ({ o with extension := none } : Options).rest = o.rest ∧
    (duelFetch url (some o)).2.1 = { url := url, options := (duelFetch url (some o)).1 } ∧
    (duelFetch url (some o)).2.2 = some e := by
  refine ⟨?_, rfl, rfl, rfl, rfl, ?_, ?_⟩ <;> simp [duelFetch, h]

/-- C10 witness: the mutation and forwarding at a concrete options object. -/
theorem entry_mutation_w :
    (duelFetch "https://example.test" (some wOptions)).1 =
      some { wOptions with extension := none } :=
  (entry_mutation "https://example.test" wOptions { timeout := some 7 } rfl).1

/-- C2 counterexample: caller input `{timeout: 5000, retry: null}` keeps the
engine timeout configured while the `null` retry config survives defaulting;
the classifier's empty-retry early return then leaves an abort outcome
unmarked and unannotated, contradicting the claim that an engine-timeout
configuration always yields `retryable = true` with reason `Timeout`. -/
theorem cancellation_classifier_cex :
    nullRetryExtension.timeoutSet = true ∧
    isAbortError abortError = true ∧
    (evaluate nullRetryExtension none "GET" (Outcome.thrown abortError)).retryable = false ∧
    (evaluate nullRetryExtension none "GET" (Outcome.thrown abortError)).errorReason =
      some (some "original reason") := by
  decide

/-- C2 amended: provided the retry config is non-empty (with an empty retry
config the classifier returns before marking anything), an abort outcome under
a configured engine timeout is marked retryable with its reason annotated
`Timeout`; without an engine timeout it is never marked retryable and the
record carries the caller signal's original reason verbatim. -/
theorem cancellation_precedence (extension : Extension) (callerReason : Option String)
    (method : String) (e : JSError) (retryConfig : RetryConfig)
    (hrc : extension.retry = some retryConfig) (habort : isAbortError e = true) :
    (extension.timeoutSet = true →
      (evaluate extension callerReason method (Outcome.thrown e)).retryable = true ∧
      (evaluate extension callerReason method (Outcome.thrown e)).errorReason =
        some (some "Timeout")) ∧
    (extension.timeoutSet = false →
      (evaluate extension callerReason method (Outcome.thrown e)).retryable = false ∧
      (evaluate extension callerReason method (Outcome.thrown e)).errorReason =
        some callerReason) := by
  constructor <;> intro ht <;>
    simp [evaluate, hrc, habort, ht, Run.errorReason, JSError.setReason]

/-- C2 witness: both branches of the precedence rule at concrete inputs — the
engine-timeout abort is annotated `Timeout`, the caller-token abort keeps the
caller's original reason. -/
theorem cancellation_precedence_w :
    ((evaluate timeoutExtension (some "original reason") "GET"
        (Outcome.thrown abortError)).retryable = true ∧
      (evaluate timeoutExtension (some "original reason") "GET"
        (Outcome.thrown abortError)).errorReason = some (some "Timeout")) ∧
    ((evaluate stdExtension (some "original reason") "GET"
        (Outcome.thrown abortError)).retryable = false ∧
      (evaluate stdExtension (some "original reason") "GET"
        (Outcome.thrown abortError)).errorReason = some (some "original reason")) :=
  ⟨(cancellation_precedence timeoutExtension (some "original reason") "GET" abortError
      defaultRetry rfl rfl).1 rfl,
   (cancellation_precedence stdExtension (some "original reason") "GET" abortError
      defaultRetry rfl rfl).2 rfl⟩

/-- C4 counterexample: in the primary classifier the code table has seven
elements and the generic timed-out code `ETIMEDOUT` is not among them, so a
thrown `ETIMEDOUT` transport error is not marked retryable. -/
theorem network_codes_cex :
    (evaluate stdExtension none "GET" (Outcome.thrown timedOutError)).retryable = false ∧
    errorCode timedOutError = some "ETIMEDOUT" ∧
    networkErrorCodes.length = 7 := by
  decide

/-- C4 amended: for a non-abort thrown error under a non-empty retry config,
the primary classifier marks the record retryable exactly when the error's
transport code is a member of its seven-element table, which omits
`ETIMEDOUT`; only the second variant's classifier uses the eight-element
table that contains `ETIMEDOUT`. -/
theorem network_codes_membership (extension : Extension) (callerReason : Option String)
    (method : String) (e : JSError) (retryConfig : RetryConfig)
    (hrc : extension.retry = some retryConfig) (hnab : isAbortError e = false) :
    ((evaluate extension callerReason method (Outcome.thrown e)).retryable = true ↔
      ∃ c, errorCode e = some c ∧ c ∈ networkErrorCodes) ∧
    ((evaluateV2 extension callerReason method (Outcome.thrown e)).retryable = true ↔
      ∃ c, errorCode e = some c ∧ c ∈ networkErrorCodesV2) ∧
    "ETIMEDOUT" ∉ networkErrorCodes ∧
    "ETIMEDOUT" ∈ networkErrorCodesV2 := by
  refine ⟨?_, ?_, by decide, by decide⟩ <;>
  · simp only [evaluate, evaluateV2, hrc, hnab, Bool.false_eq_true, if_false]
    cases hc : errorCode e with
    | none => simp [hc]
    | some c => simp [hc, List.elem_iff]

/-- C4 witness: an `ECONNRESET` transport error is in the table and retryable. -/
theorem network_codes_membership_w :
    (evaluate stdExtension none "GET" (Outcome.thrown connResetError)).retryable = true :=
  (network_codes_membership stdExtension none "GET" connResetError
    defaultRetry rfl rfl).1.mpr ⟨"ECONNRESET", rfl, by decide⟩

/-- C5: a completed response is classified retryable exactly when its status
is a server error (at least 500) and the request method is among the retry
methods; a response outcome never carries an error, and when every attempt
completes with a response the call raises nothing — no HTTP error status is
ever surfaced as a thrown error. -/
theorem response_classification (extension : Extension) (callerReason : Option String)
    (method : String) (status : Nat) (attempts : Nat → Outcome) (times : Nat → Nat) :
    ((evaluate extension callerReason method (Outcome.response status)).retryable = true ↔
      ∃ retryConfig, extension.retry = some retryConfig ∧
        method ∈ retryConfig.methods ∧ 500 ≤ status) ∧
    (evaluate extension callerReason method (Outcome.response status)).error = none ∧
    ((∀ i, ∃ s, attempts i = Outcome.response s) →
      ∀ e, FetchEvent.raised e ∉ fetchTrace extension callerReason method attempts times) := by
  refine ⟨?_, evaluate_response_error_none extension callerReason method status, ?_⟩
  · cases hrc : extension.retry with
    | none => simp [evaluate, hrc]
    | some retryConfig =>
        simp [evaluate, hrc, isServerErrorCode, List.elem_iff, and_comm]
  · intro hresp e hmem
    obtain ⟨report, lastRun, hs, hg, ht⟩ :=
      fetchTrace_shape extension callerReason method attempts times
    have hlmem : lastRun ∈ fetchRuns extension callerReason method attempts times :=
      List.mem_of_mem_getLast? hg
    obtain ⟨j, hj⟩ := loopFrom_mem extension callerReason method attempts times
      (runLimit extension) 0 lastRun hlmem
    obtain ⟨s, hsj⟩ := hresp j
    have herr : lastRun.error = none := by
      rw [hj]
      show (evaluate extension callerReason method (attempts j)).error = none
      rw [hsj]
      exact evaluate_response_error_none extension callerReason method s
    rw [ht, herr] at hmem
    rcases List.mem_append.mp hmem with h | h
    · split_ifs at h <;> simp_all
    · simp at h

/-- C5 witness: a GET 500 under the default config is retryable, and the
all-responses call with final status 500 raises nothing. -/
theorem response_classification_w :
    (evaluate stdExtension none "GET" (Outcome.response 500)).retryable = true ∧
    FetchEvent.raised connResetError ∉ fetchTrace stdExtension none "GET" always500 zeroTimes :=
  ⟨(response_classification stdExtension none "GET" 500 always500 zeroTimes).1.mpr
      ⟨defaultRetry, rfl, by decide, by omega⟩,
   (response_classification stdExtension none "GET" 500 always500 zeroTimes).2.2
      (fun _ => ⟨500, rfl⟩) connResetError⟩

/-- C6: the report contains a `failMessage` exactly when the final record
failed, a `warnMessage` exactly when the final record succeeded after more
than one attempt, never both, and neither when a single attempt succeeded
outright. -/
theorem report_message_exclusivity (runs : List Run) (report : Report)
    (h : stats runs = some report) :
    (report.failMessage.isSome = true ↔ report.lastRun.failed = true) ∧
    (report.warnMessage.isSome = true ↔
      (report.lastRun.failed = false ∧ 1 < runs.length)) ∧
    ¬(report.failMessage.isSome = true ∧ report.warnMessage.isSome = true) ∧
    (runs.length = 1 ∧ report.lastRun.failed = false →
      report.failMessage = none ∧ report.warnMessage = none) := by
  unfold stats at h
  split at h
  · exact absurd h (by simp)
  · rename_i lastRun hg
    dsimp only at h
    split_ifs at h with hf hlen <;>
      (injection h with h; subst h) <;>
      (simp_all; try omega)

/-- C6 witness: a one-shot successful call yields neither message. -/
theorem report_message_exclusivity_w :
    singleOkReport.failMessage = none ∧ singleOkReport.warnMessage = none :=
  (report_message_exclusivity [singleOkRun] singleOkReport (by decide)).2.2.2
    ⟨by decide, by decide⟩

/-- C7: on a failed final record the `failMessage` is the failure description
(`errorSummary` or `status <code>`) followed by `after <N> attempt(s)` with
`N` the log length and the standard count-noun pluralization. -/
theorem fail_message_format (runs : List Run) (report : Report) (lastRun : Run)
    (h : stats runs = some report) (hg : runs.getLast? = some lastRun)
    (hf : lastRun.failed = true) :
    report.failMessage =
      some (failDescription lastRun ++ " after " ++ countOf runs.length "attempt") ∧
    countOf runs.length "attempt" =
      toString runs.length ++ " " ++ "attempt" ++
        (if runs.length = 1 then "" else "s") := by
  constructor
  · unfold stats at h
    rw [hg] at h
    dsimp only at h
    rw [if_pos hf] at h
    injection h with h
    subst h
    rfl
  · simp only [countOf, beq_iff_eq]

/-- C7 witness (the claim's scenario): a GET answered 500 on every attempt
under `retry.limit = 1` produces exactly 2 records and the fail message
`Failed with status 500 after 2 attempts`. -/
theorem fail_message_format_w :
    scenarioRuns.length = 2 ∧
    (stats scenarioRuns).bind Report.failMessage =
      some "Failed with status 500 after 2 attempts" := by
  refine ⟨by decide, ?_⟩
  cases hr : stats scenarioRuns with
  | none => exact absurd hr (by decide)
  | some report =>
      have h1 := (fail_message_format scenarioRuns report run500 hr (by decide) (by decide)).1
      rw [Option.some_bind, h1]
      decide

/-- C8: when a completion callback is configured, the report is computed and
delivered to it first, and only then does the call settle — raising exactly
the final record's error object when one is present, otherwise resolving with
the response. -/
theorem completion_then_settle (extension : Extension) (callerReason : Option String)
    (method : String) (attempts : Nat → Outcome) (times : Nat → Nat)
    (hcb : extension.onComplete = true) :
    ∃ report lastRun,
      stats (fetchRuns extension callerReason method attempts times) = some report ∧
      (fetchRuns extension callerReason method attempts times).getLast? = some lastRun ∧
      fetchTrace extension callerReason method attempts times =
        FetchEvent.onCompleteCall report ::
          [match lastRun.error with
           | some error => FetchEvent.raised error
           | none => FetchEvent.resolvedWith report] := by
  obtain ⟨report, lastRun, hs, hg, ht⟩ :=
    fetchTrace_shape extension callerReason method attempts times
  refine ⟨report, lastRun, hs, hg, ?_⟩
  rw [ht, hcb]
  cases he : lastRun.error <;> simp [he]

/-- C8 witness: the all-500 call with a configured callback emits the report
delivery first and then resolves (no error on the final record). -/
theorem completion_then_settle_w :
    fetchTrace cbExtension none "GET" always500 zeroTimes =
      [FetchEvent.onCompleteCall report500, FetchEvent.resolvedWith report500] := by
  obtain ⟨report, lastRun, hs, hg, ht⟩ :=
    completion_then_settle cbExtension none "GET" always500 zeroTimes rfl
  have hs0 : stats (fetchRuns cbExtension none "GET" always500 zeroTimes) =
      some report500 := by decide
  have hg0 : (fetchRuns cbExtension none "GET" always500 zeroTimes).getLast? =
      some run500 := by decide
  rw [hs0] at hs
  rw [hg0] at hg
  injection hs with hs
  injection hg with hg
  subst hs
  subst hg
  rw [ht]
  rfl

end FetchExt
